import Mathlib

/-!
Verification development for the uc-server authentication core.

Each definition below is a shallow embedding of a function of the Go
repository (file and function named in its doc comment).  Machine
integers are modelled as `Nat`/`Int`, Redis state as explicit values
threaded through the functions, and fallible operations as
`Option`/`Except`.
-/

namespace UCServer

/-- Embeds `repository.TenantUserWithTenant` (internal/repository/user.go):
the `tenant_user` row joined with the tenant's name.  `lastLoginAt` is the
`int64` column (0 = never logged in), `createdAt` the creation timestamp. -/
structure TenantUserWithTenant where
  tenantID : Nat
  userID : Nat
  role : String
  status : Int
  lastLoginAt : Int
  createdAt : Int
  tenantName : String
  deriving Repr, DecidableEq

/-- Embeds `authService.selectMostRecentTenant`
(internal/service/auth_service.go): among entries with a non-zero
`lastLoginAt` pick the one with the largest value (first wins on ties),
otherwise pick the entry with the smallest `createdAt`. -/
def selectMostRecentTenant (tenants : List TenantUserWithTenant) :
    Option TenantUserWithTenant :=
  if tenants.isEmpty then none
  else
    let hasLoginRecord := tenants.filter (fun tu => tu.lastLoginAt ≠ 0)
    let noLoginRecord := tenants.filter (fun tu => tu.lastLoginAt = 0)
    match hasLoginRecord with
    | mostRecent :: rest =>
        some (rest.foldl
          (fun best tu => if best.lastLoginAt < tu.lastLoginAt then tu else best)
          mostRecent)
    | [] =>
        match noLoginRecord with
        | earliest :: rest =>
            some (rest.foldl
              (fun best tu => if tu.createdAt < best.createdAt then tu else best)
              earliest)
        | [] => none

/-- Embeds `authService.selectDefaultTenant`
(internal/service/auth_service.go): a single membership is returned as-is;
otherwise tenant-admin memberships are preferred, falling back to the
non-admin ones, and `selectMostRecentTenant` picks within the subset. -/
def selectDefaultTenant (tenantUsers : List TenantUserWithTenant) :
    Option TenantUserWithTenant :=
  match tenantUsers with
  | [] => none
  | [tu] => some tu
  | _ :: _ :: _ =>
    let adminTenants := tenantUsers.filter (fun tu => tu.role = "tenant_admin")
    let regularTenants := tenantUsers.filter (fun tu => ¬(tu.role = "tenant_admin"))
    if 0 < adminTenants.length then selectMostRecentTenant adminTenants
    else selectMostRecentTenant regularTenants

/-- Spec-side helper for claim C4: the subset the claim says the default
tenant is drawn from — the tenant-admin memberships when any exist,
otherwise the `user`-role memberships. -/
def chosenSubset (l : List TenantUserWithTenant) : List TenantUserWithTenant :=
  if l.filter (fun tu => tu.role = "tenant_admin") = [] then
    l.filter (fun tu => tu.role = "user")
  else
    l.filter (fun tu => tu.role = "tenant_admin")

/-- The property claim C4 asserts of `selectDefaultTenant`: a singleton list
yields its element; otherwise the result lies in `chosenSubset`, and within
that subset the maximum `lastLoginAt` wins among entries with a non-zero
`lastLoginAt`, falling back to the minimum `createdAt` when none has
logged in. -/
def SelectDefaultSpec (l : List TenantUserWithTenant) : Prop :=
  ∃ t, selectDefaultTenant l = some t ∧
    (∀ x, l = [x] → t = x) ∧
    (2 ≤ l.length →
      t ∈ chosenSubset l ∧
      ((chosenSubset l).filter (fun tu => tu.lastLoginAt ≠ 0) = [] →
        ∀ x ∈ chosenSubset l, t.createdAt ≤ x.createdAt) ∧
      ((chosenSubset l).filter (fun tu => tu.lastLoginAt ≠ 0) ≠ [] →
        t.lastLoginAt ≠ 0 ∧
        ∀ x ∈ chosenSubset l, x.lastLoginAt ≠ 0 → x.lastLoginAt ≤ t.lastLoginAt))

/-- Embeds `usernameRateLimitMaxAttempts` (internal/service/auth_service.go). -/
def usernameRateLimitMaxAttempts : Nat := 5

/-- The per-username rate-limit state held in Redis for one username key:
the failure counter `user:login:attempts:<u>` (absent = 0, which is what
`UserCache.GetLoginAttempts` returns on a miss) and whether the lock key
`user:login:locked:<u>` holds the value `true`. -/
structure UserLimitState where
  attempts : Nat
  locked : Bool
  deriving Repr, DecidableEq

/-- Injected cache-failure flags for the Redis operations the login path
performs, so the fail-open/fail-swallow policy is explicit. -/
structure CacheErrs where
  lockedReadErr : Bool
  attemptsReadErr : Bool
  lockWriteErr : Bool
  incrErr : Bool
  clearErr : Bool
  deriving Repr, DecidableEq

def noErrs : CacheErrs :=
  { lockedReadErr := false, attemptsReadErr := false, lockWriteErr := false,
    incrErr := false, clearErr := false }

/-- Login failure outcomes of `authService.Login` and its helpers. -/
inductive LoginErr
  | rateLimited
  | invalidCredentials
  | noActiveTenants
  | tokenGenFailed
  deriving Repr, DecidableEq

/-- Embeds `authService.checkUsernameRateLimit`
(internal/service/auth_service.go).  Returns the rejection (if any) and the
updated per-username state.  An error reading the lock flag or the counter
admits the attempt (fail open); when the counter is at or past
`usernameRateLimitMaxAttempts` the check itself calls
`UserCache.LockAccount`, swallowing a failing write. -/
def checkUsernameRateLimit (e : CacheErrs) (username : String) (s : UserLimitState) :
    Option LoginErr × UserLimitState :=
  if username = "" then (none, s)
  else if e.lockedReadErr then (none, s)
  else if s.locked then (some .rateLimited, s)
  else if e.attemptsReadErr then (none, s)
  else if usernameRateLimitMaxAttempts ≤ s.attempts then
    (some .rateLimited, if e.lockWriteErr then s else { s with locked := true })
  else (none, s)

/-- Embeds `authService.recordLoginFailure`
(internal/service/auth_service.go): `UserCache.IncrementLoginAttempts`, a
failing increment is logged and swallowed. -/
def recordLoginFailure (e : CacheErrs) (username : String) (s : UserLimitState) :
    UserLimitState :=
  if username = "" then s
  else if e.incrErr then s
  else { s with attempts := s.attempts + 1 }

/-- Embeds `authService.clearLoginAttempts`
(internal/service/auth_service.go): `UserCache.UnlockAccount` deletes both
the lock key and the counter key; a failing delete is logged and
swallowed. -/
def clearLoginAttempts (e : CacheErrs) (username : String) (s : UserLimitState) :
    UserLimitState :=
  if username = "" then s
  else if e.clearErr then s
  else { attempts := 0, locked := false }

/-- Embeds `model.User` (internal/model).  `password` stands for the bcrypt
hash: `CheckPassword` is modelled as comparison with the stored secret. -/
structure User where
  id : Nat
  username : String
  email : String
  password : String
  role : String
  status : Nat
  deriving Repr, DecidableEq

/-- Embeds `model.User.CheckPassword`: bcrypt comparison, modelled as
equality with the stored secret. -/
def checkPassword (u : User) (password : String) : Bool :=
  u.password == password

/-- Embeds `dto.UserResponse` as built by `authService.buildUserResponse`
(timestamps omitted). -/
structure UserResponse where
  id : Nat
  username : String
  email : String
  role : String
  status : Nat
  deriving Repr, DecidableEq

/-- Embeds `authService.buildUserResponse`. -/
def buildUserResponse (u : User) : UserResponse :=
  { id := u.id, username := u.username, email := u.email, role := u.role, status := u.status }

/-- Embeds `dto.Tenant`. -/
structure TenantDTO where
  tenantID : Nat
  tenantName : String
  role : String
  deriving Repr, DecidableEq

/-- Embeds `authService.buildTenantList`. -/
def buildTenantList (tenantUsers : List TenantUserWithTenant) : List TenantDTO :=
  tenantUsers.map (fun tu =>
    { tenantID := tu.tenantID, tenantName := tu.tenantName, role := tu.role })

/-- Embeds `cache.UserSessionData` (the session payload cached per
(userID, claimsID)). -/
structure UserSessionData where
  userID : Nat
  user : UserResponse
  tenantID : Nat
  tenantName : String
  role : String
  tenants : List TenantDTO
  isGlobalAdmin : Bool
  isProxy : Bool
  proxyUserID : Nat
  deriving Repr, DecidableEq

/-- Embeds `jwt.Claims` (internal/pkg/jwt/jwt.go).  `id` is the
`RegisteredClaims.ID` field, which `GenerateAccessToken` never assigns, so
it keeps the Go zero value `""`. -/
structure Claims where
  userID : Nat
  tenantID : Nat
  role : String
  expiresAt : Int
  issuedAt : Int
  issuer : String
  id : String
  deriving Repr, DecidableEq

/-- A signed access token: the claims plus whether its HMAC signature
verifies against the process secret (always true for self-issued tokens). -/
structure SignedToken where
  claims : Claims
  validSig : Bool
  deriving Repr, DecidableEq

/-- Result bundle of `JWTUtil.GenerateAccessToken`: the registered claims
ID, the signed token and the expiry time. -/
structure GeneratedToken where
  claimsID : String
  token : SignedToken
  expiresAt : Int
  deriving Repr, DecidableEq

/-- Embeds `JWTUtil.GenerateAccessToken` (internal/pkg/jwt/jwt.go): builds
claims with `ExpiresAt`, `IssuedAt` and `Issuer` — the `ID` field is never
assigned and stays `""` — then returns `(claims.ID, token, expiresAt)`. -/
def generateAccessToken (expiresIn : Int) (userID tenantID : Nat) (role : String)
    (now : Int) : GeneratedToken :=
  let claims : Claims :=
    { userID := userID, tenantID := tenantID, role := role,
      expiresAt := now + expiresIn, issuedAt := now, issuer := "user-service", id := "" }
  { claimsID := claims.id, token := { claims := claims, validSig := true },
    expiresAt := claims.expiresAt }

/-- Embeds `JWTUtil.ParseAccessToken`: signature verification yields the
embedded claims, an invalid signature is an error. -/
def parseAccessToken (t : SignedToken) : Option Claims :=
  if t.validSig then some t.claims else none

/-- The Redis key `UserCache.SetUserSession` writes the session payload
under (src/unnamed/part_001). -/
def setUserSessionKey (userID : Nat) (sessionID : String) : String :=
  "user:session:" ++ toString userID ++ ":" ++ sessionID

/-- The Redis key `UserCache.GetUserSession` reads from — the same format
as `setUserSessionKey`. -/
def getUserSessionKey (userID : Nat) (sessionID : String) : String :=
  "user:session:" ++ toString userID ++ ":" ++ sessionID

/-- A `UserCache.SetUserSession` call: the composite key components and the
payload. -/
structure SessionWrite where
  userID : Nat
  claimsID : String
  data : UserSessionData
  deriving Repr, DecidableEq

/-- Embeds `dto.LoginResponse` (refresh-token-free fields used by the
auth service). -/
structure LoginResponse where
  accessToken : SignedToken
  accessTokenExpiresAt : Int
  user : UserResponse
  currentTenant : TenantDTO
  tenants : List TenantDTO
  isGlobalAdmin : Bool
  deriving Repr, DecidableEq

/-- Embeds `authService.handleSystemAdminLogin`
(internal/service/auth_service.go): token for tenant 1, empty tenant list,
and the session warmed under the generated claims ID.  `tokenGenOk := false`
models a signing error. -/
def handleSystemAdminLogin (tokenGenOk : Bool) (expiresIn now : Int) (u : User) :
    Except LoginErr (LoginResponse × SessionWrite) :=
  if tokenGenOk then
    let g := generateAccessToken expiresIn u.id 1 u.role now
    .ok ({ accessToken := g.token, accessTokenExpiresAt := g.expiresAt,
           user := buildUserResponse u,
           currentTenant := { tenantID := 0, tenantName := "", role := "" },
           tenants := [], isGlobalAdmin := true },
         { userID := u.id, claimsID := g.claimsID,
           data := { userID := u.id, user := buildUserResponse u, tenantID := 1,
                     tenantName := "", role := u.role, tenants := [],
                     isGlobalAdmin := true, isProxy := false, proxyUserID := 0 } })
  else .error .tokenGenFailed

/-- Embeds `authService.handleTenantUserLogin`
(internal/service/auth_service.go).  `tenantUsers = none` models the
repository error (it also rejects an empty membership list, so
`selectDefaultTenant` never sees `[]` on this path); the
`UpdateLastLoginAt` write is external and its failure is swallowed. -/
def handleTenantUserLogin (tokenGenOk : Bool) (expiresIn now : Int) (u : User)
    (tenantUsers : Option (List TenantUserWithTenant)) :
    Except LoginErr (LoginResponse × SessionWrite) :=
  match tenantUsers with
  | none => .error .noActiveTenants
  | some tus =>
    match selectDefaultTenant tus with
    | none => .error .noActiveTenants
    | some sel =>
      if tokenGenOk then
        let tenants := buildTenantList tus
        let g := generateAccessToken expiresIn u.id sel.tenantID u.role now
        .ok ({ accessToken := g.token, accessTokenExpiresAt := g.expiresAt,
               user := buildUserResponse u,
               currentTenant := { tenantID := sel.tenantID,
                                  tenantName := sel.tenantName, role := sel.role },
               tenants := tenants, isGlobalAdmin := false },
             { userID := u.id, claimsID := g.claimsID,
               data := { userID := u.id, user := buildUserResponse u,
                         tenantID := sel.tenantID, tenantName := sel.tenantName,
                         role := sel.role, tenants := tenants,
                         isGlobalAdmin := false, isProxy := false, proxyUserID := 0 } })
      else .error .tokenGenFailed

/-- External collaborators of one `authService.Login` call: the Record
Store lookups and whether token signing succeeds. -/
structure LoginEnv where
  byUsername : Option User
  byEmail : Option User
  tenantUsers : Option (List TenantUserWithTenant)
  tokenGenOk : Bool
  deriving Repr, DecidableEq

/-- Embeds `authService.Login` (internal/service/auth_service.go): rate
limit admission, username-then-email lookup, password check, role-specific
response building, failure recording on every failed step after admission,
and clearing of the rate-limit keys on full success. -/
def Login (e : CacheErrs) (env : LoginEnv) (expiresIn now : Int)
    (username password : String) (s : UserLimitState) :
    Except LoginErr (LoginResponse × SessionWrite) × UserLimitState :=
  match checkUsernameRateLimit e username s with
  | (some err, s1) => (.error err, s1)
  | (none, s1) =>
    match env.byUsername.orElse (fun _ => env.byEmail) with
    | none => (.error .invalidCredentials, recordLoginFailure e username s1)
    | some user =>
      if checkPassword user password then
        match (if user.role = "super_admin" then
                 handleSystemAdminLogin env.tokenGenOk expiresIn now user
               else
                 handleTenantUserLogin env.tokenGenOk expiresIn now user env.tenantUsers) with
        | .error err => (.error err, recordLoginFailure e username s1)
        | .ok rw => (.ok rw, clearLoginAttempts e username s1)
      else (.error .invalidCredentials, recordLoginFailure e username s1)

/-- Embeds `DefaultIPRateLimit.MaxAttempts` (internal/middleware/rate_limit.go). -/
def defaultIPRateLimitMaxAttempts : Nat := 10

/-- The per-client-address rate-limit state (counter plus lock flag). -/
structure IPLimitState where
  attempts : Nat
  locked : Bool
  deriving Repr, DecidableEq

/-- Cache-failure flags for the IP limiter's Redis reads and lock write. -/
structure IPErrs where
  lockedReadErr : Bool
  attemptsReadErr : Bool
  lockWriteErr : Bool
  deriving Repr, DecidableEq

/-- Whether the IP limiter lets the request through to the handler. -/
inductive IPDecision
  | proceed
  | reject
  deriving Repr, DecidableEq

/-- Embeds the admission phase of `middleware.IPRateLimiter`
(internal/middleware/rate_limit.go, before `c.Next()`): Redis read errors
admit the request (fail open); at or past `MaxAttempts` the middleware
locks the address (a failing lock write only changes the rejection
message) and rejects with 429. -/
def ipRateLimiterAdmission (maxAttempts : Nat) (e : IPErrs) (s : IPLimitState) :
    IPDecision × IPLimitState :=
  if e.lockedReadErr then (.proceed, s)
  else if s.locked then (.reject, s)
  else if e.attemptsReadErr then (.proceed, s)
  else if maxAttempts ≤ s.attempts then
    (.reject, if e.lockWriteErr then s else { s with locked := true })
  else (.proceed, s)

/-- Model of the external `crypto/sha256` digest used by the logout
handler: an unspecified deterministic map from strings to 32 bytes.  Only
its determinism and the 32-byte output length are relied on — no claim
depends on actual SHA-256 values. -/
def sha256Bytes (s : String) : List Nat :=
  (List.range 32).map (fun i => (s.data.foldl (fun a c => (a * 31 + c.toNat + i) % 256) i) % 256)

def hexDigit (n : Nat) : Char :=
  if n < 10 then Char.ofNat (48 + n) else Char.ofNat (87 + n)

/-- Embeds `hex.EncodeToString`: two lowercase hex digits per byte. -/
def hexEncode : List Nat → String
  | [] => ""
  | b :: rest => String.mk [hexDigit (b / 16 % 16), hexDigit (b % 16)] ++ hexEncode rest

/-- Embeds `handler.generateAccessTokenKey` (internal/handler/auth.go): the
blacklist key the logout handler writes — `"blacklist:"` plus the first 16
bytes of the token's SHA-256 digest, hex encoded (32 hex characters). -/
def generateAccessTokenKey (token : String) : String :=
  "blacklist:" ++ hexEncode ((sha256Bytes token).take 16)

/-- Embeds `jwt.GenerateTokenIDFromToken` (internal/pkg/jwt/jwt.go):
`"token-" + tokenString[:10]`.  The Go slice has no length guard, so a
token shorter than 10 bytes makes it panic; `none` models that panic. -/
def generateTokenIDFromToken (token : String) : Option String :=
  if 10 ≤ token.length then some ("token-" ++ String.mk (token.data.take 10))
  else none

/-- One Redis string entry: key, value and TTL (seconds). -/
structure KVEntry where
  key : String
  value : String
  ttl : Int
  deriving Repr, DecidableEq

/-- Redis GET over a write list (most recent write first). -/
def kvGet (entries : List KVEntry) (k : String) : Option String :=
  (entries.find? (fun en => en.key == k)).map (fun en => en.value)

/-- The Redis state the logout handler touches: generic string entries
(the blacklist lives here) plus the session payloads and the per-account
session index that `UserCache` maintains. -/
structure RedisState where
  kv : List KVEntry
  sessions : List (Nat × String × UserSessionData)
  sessionIndex : List (Nat × List String)
  deriving Repr, DecidableEq

/-- Embeds the token-blacklisting tail of `AuthHandler.Logout`
(internal/handler/auth.go): `GetTokenExpiry` yields the expiry (`none` is
a parse failure, answered with a 500 and no write); with remaining
validity `exp - now > 0` one blacklist entry is written under
`generateAccessTokenKey` with TTL exactly the remaining time (a failing
write is a 500); otherwise nothing is written.  No session or session-index
key is touched. -/
def logoutBlacklistStep (setErr : Bool) (expiry : Option Int) (now : Int)
    (token : String) (r : RedisState) : Except String RedisState :=
  match expiry with
  | none => .error ("Failed to get token expiry")
  | some exp =>
    if 0 < exp - now then
      if setErr then .error ("Failed to blacklist token")
      else .ok { r with kv := { key := generateAccessTokenKey token, value := "true",
                                ttl := exp - now } :: r.kv }
    else .ok r

/-- Outcome of the revocation check the JWT middleware performs before
parsing (internal/middleware/jwt.go lines 45-53). -/
inductive RevocationOutcome
  | panicked
  | unauthorized
  | proceed
  deriving Repr, DecidableEq

/-- Embeds the blacklist check of `middleware.JWTAuthMiddleware`: compute
`GenerateTokenIDFromToken` (which panics on tokens shorter than 10 bytes),
read `"blacklist:" + tokenID`, and reject only when the read succeeds with
value `"true"` (a missing key is a Redis error and falls through). -/
def jwtRevocationStep (r : RedisState) (tokenString : String) : RevocationOutcome :=
  match generateTokenIDFromToken tokenString with
  | none => .panicked
  | some tokenID =>
    match kvGet r.kv ("blacklist:" ++ tokenID) with
    | some v => if v == "true" then .unauthorized else .proceed
    | none => .proceed

/-- The asynchronous cache writes the request path can fire. -/
inductive AsyncWrite
  | setUserByID (u : User)
  | setUserSession (userID : Nat) (claimsID : String) (d : UserSessionData)
  deriving Repr, DecidableEq

/-- Embeds the session-resolution tail of `middleware.JWTAuthMiddleware`
(internal/middleware/jwt.go lines 75-98).  `cacheResult` is the
`GetUserSession(claims.UserID, claims.ID)` result (`none` on miss or cache
error), `dbUser` the `userService.GetUserByID` result.  On a miss with an
existing account the Go code binds the DB user to a new, shadowed `user`
variable used only by the goroutine that caches the bare user record under
the user-by-ID key; the outer `user` stored into the request context is
still the failed lookup's nil value, which the first component records. -/
def jwtMiddlewareSessionStep (cacheResult : Option UserSessionData) (dbUser : Option User) :
    Except String (Option UserSessionData × Option AsyncWrite) :=
  match cacheResult with
  | some d => .ok (some d, none)
  | none =>
    match dbUser with
    | none => .error ("User not found")
    | some u => .ok (none, some (.setUserByID u))

/-- Embeds `authService.GetUserSessionData`
(internal/service/auth_service.go lines 466-535): on a cache miss the
session context is rebuilt from the user record and the tenant memberships
(a membership lookup failure is tolerated for system admins), and the
rebuilt payload is written back to the session cache asynchronously. -/
def getUserSessionData (userID tenantID : Nat) (claimsID : String)
    (cached : Option UserSessionData) (dbUser : Option User)
    (tenantUsers : Option (List TenantUserWithTenant)) :
    Except String (UserSessionData × Option AsyncWrite) :=
  match cached with
  | some d => .ok (d, none)
  | none =>
    match dbUser with
    | none => .error ("user not found")
    | some user =>
      let tenants := match tenantUsers with
        | some tus => buildTenantList tus
        | none => []
      let current := (tenantUsers.getD []).find? (fun tu => tu.tenantID == tenantID)
      let tenantName := match current with
        | some tu => tu.tenantName
        | none => ""
      let role0 := match current with
        | some tu => tu.role
        | none => ""
      let isGlobalAdmin := user.role == "super_admin"
      let role := if user.role = "super_admin" then user.role else role0
      let data : UserSessionData :=
        { userID := userID,
          user := buildUserResponse { user with role := role },
          tenantID := tenantID, tenantName := tenantName, role := role,
          tenants := tenants, isGlobalAdmin := isGlobalAdmin,
          isProxy := false, proxyUserID := 0 }
      .ok (data, some (.setUserSession userID claimsID data))

/-- The amended claim C3: admission (absent cache errors) is allowed
exactly when no Lockout is present and the counter is below the maximum;
when the counter is at or past the maximum it is the admission check
itself that sets the Lockout, while the failure-recording operation only
increments the counter and never touches the lock. -/
def AdmissionLockProp (username : String) (s : UserLimitState) : Prop :=
  ((checkUsernameRateLimit noErrs username s).1 = none ↔
    s.locked = false ∧ s.attempts < usernameRateLimitMaxAttempts) ∧
  (s.locked = false → usernameRateLimitMaxAttempts ≤ s.attempts →
    (checkUsernameRateLimit noErrs username s).2 = { attempts := s.attempts, locked := true }) ∧
  (∀ e : CacheErrs, recordLoginFailure e username s
      = if e.incrErr then s else { attempts := s.attempts + 1, locked := s.locked })

/-- A concrete system-admin account used to evaluate the login flow. -/
def demoAdmin : User :=
  { id := 7, username := "alice", email := "alice@example.com", password := "pw",
    role := "super_admin", status := 1 }

/-- A concrete login environment: the account exists under its username,
token signing succeeds. -/
def demoEnv : LoginEnv :=
  { byUsername := some demoAdmin, byEmail := none, tenantUsers := none, tokenGenOk := true }

/-- The property claim C5 asserts: starting from a clean rate-limit state,
`usernameRateLimitMaxAttempts` consecutive failed logins (wrong password)
leave the counter at the maximum with no lock, and the next login attempt
for that username is rejected `rateLimited` whatever password it supplies —
in particular the correct one — before the credential is ever checked. -/
def afterNFailures (env : LoginEnv) (expiresIn now : Int) (username w : String) :
    Nat → UserLimitState
  | 0 => { attempts := 0, locked := false }
  | n + 1 =>
    (Login noErrs env expiresIn now username w
      (afterNFailures env expiresIn now username w n)).2

def RateLimitedAfterMaxFailures (env : LoginEnv) (expiresIn now : Int)
    (username w : String) : Prop :=
  afterNFailures env expiresIn now username w usernameRateLimitMaxAttempts
    = { attempts := usernameRateLimitMaxAttempts, locked := false } ∧
  ∀ p, (Login noErrs env expiresIn now username p
        (afterNFailures env expiresIn now username w usernameRateLimitMaxAttempts)).1
      = .error .rateLimited

/-- A concrete bearer token (12 characters, so the middleware's token-ID
slice is defined on it). -/
def demoToken : String := "abcdefghijkl"

/-- A concrete regular account for evaluating the middleware's miss path. -/
def demoUserBob : User :=
  { id := 9, username := "bob", email := "bob@example.com", password := "x",
    role := "user", status := 1 }

/-- A concrete membership row for `demoUserBob`. -/
def demoMembership : TenantUserWithTenant :=
  { tenantID := 3, userID := 9, role := "user", status := 1, lastLoginAt := 0,
    createdAt := 1, tenantName := "acme" }

/-- A concrete tenant-admin membership row, never logged in. -/
def demoAdminMembership : TenantUserWithTenant :=
  { tenantID := 4, userID := 9, role := "tenant_admin", status := 1, lastLoginAt := 0,
    createdAt := 2, tenantName := "beta" }

/-- A concrete user-role membership row with a recorded login. -/
def demoLoggedMembership : TenantUserWithTenant :=
  { tenantID := 3, userID := 9, role := "user", status := 1, lastLoginAt := 100,
    createdAt := 5, tenantName := "acme" }

theorem foldl_maxLL_mem (m : TenantUserWithTenant) (rest : List TenantUserWithTenant) :
    rest.foldl (fun best tu => if best.lastLoginAt < tu.lastLoginAt then tu else best) m
      ∈ m :: rest := by
  induction rest generalizing m with
  | nil => simp [List.foldl]
  | cons x xs ih =>
    simp only [List.foldl]
    by_cases hx : m.lastLoginAt < x.lastLoginAt
    · rw [if_pos hx]
      have h := ih x
      rw [List.mem_cons] at h ⊢
      rcases h with h | h
      · right
        rw [List.mem_cons]
        exact Or.inl h
      · right
        exact List.mem_cons_of_mem _ h
    · rw [if_neg hx]
      have h := ih m
      rw [List.mem_cons] at h ⊢
      rcases h with h | h
      · exact Or.inl h
      · right
        exact List.mem_cons_of_mem _ h

theorem foldl_maxLL_ge (m : TenantUserWithTenant) (rest : List TenantUserWithTenant) :
    ∀ x ∈ m :: rest, x.lastLoginAt ≤
      (rest.foldl (fun best tu => if best.lastLoginAt < tu.lastLoginAt then tu else best) m).lastLoginAt := by
  induction rest generalizing m with
  | nil => simp [List.foldl]
  | cons y ys ih =>
    intro x hx
    simp only [List.foldl]
    have step : m.lastLoginAt ≤ (if m.lastLoginAt < y.lastLoginAt then y else m).lastLoginAt ∧
        y.lastLoginAt ≤ (if m.lastLoginAt < y.lastLoginAt then y else m).lastLoginAt := by
      by_cases hy : m.lastLoginAt < y.lastLoginAt
      · simp [hy]
        exact le_of_lt hy
      · simp [hy]
        exact le_of_not_lt hy
    rw [List.mem_cons, List.mem_cons] at hx
    rcases hx with hx | hx | hx
    · subst hx
      exact le_trans step.1 (ih _ _ (List.mem_cons_self _ _))
    · subst hx
      exact le_trans step.2 (ih _ _ (List.mem_cons_self _ _))
    · exact ih _ x (List.mem_cons_of_mem _ hx)

theorem foldl_minCA_mem (m : TenantUserWithTenant) (rest : List TenantUserWithTenant) :
    rest.foldl (fun best tu => if tu.createdAt < best.createdAt then tu else best) m
      ∈ m :: rest := by
  induction rest generalizing m with
  | nil => simp [List.foldl]
  | cons x xs ih =>
    simp only [List.foldl]
    by_cases hx : x.createdAt < m.createdAt
    · rw [if_pos hx]
      have h := ih x
      rw [List.mem_cons] at h ⊢
      rcases h with h | h
      · right
        rw [List.mem_cons]
        exact Or.inl h
      · right
        exact List.mem_cons_of_mem _ h
    · rw [if_neg hx]
      have h := ih m
      rw [List.mem_cons] at h ⊢
      rcases h with h | h
      · exact Or.inl h
      · right
        exact List.mem_cons_of_mem _ h

theorem foldl_minCA_le (m : TenantUserWithTenant) (rest : List TenantUserWithTenant) :
    ∀ x ∈ m :: rest,
      (rest.foldl (fun best tu => if tu.createdAt < best.createdAt then tu else best) m).createdAt
        ≤ x.createdAt := by
  induction rest generalizing m with
  | nil => simp [List.foldl]
  | cons y ys ih =>
    intro x hx
    simp only [List.foldl]
    have step : (if y.createdAt < m.createdAt then y else m).createdAt ≤ m.createdAt ∧
        (if y.createdAt < m.createdAt then y else m).createdAt ≤ y.createdAt := by
      by_cases hy : y.createdAt < m.createdAt
      · simp [hy]
        exact le_of_lt hy
      · simp [hy]
        exact le_of_not_lt hy
    rw [List.mem_cons, List.mem_cons] at hx
    rcases hx with hx | hx | hx
    · subst hx
      exact le_trans (ih _ _ (List.mem_cons_self _ _)) step.1
    · subst hx
      exact le_trans (ih _ _ (List.mem_cons_self _ _)) step.2
    · exact ih _ x (List.mem_cons_of_mem _ hx)

theorem selectMostRecentTenant_spec (l : List TenantUserWithTenant) (hne : l ≠ []) :
    ∃ t, selectMostRecentTenant l = some t ∧ t ∈ l ∧
      (l.filter (fun tu => tu.lastLoginAt ≠ 0) = [] → ∀ x ∈ l, t.createdAt ≤ x.createdAt) ∧
      (l.filter (fun tu => tu.lastLoginAt ≠ 0) ≠ [] →
        t.lastLoginAt ≠ 0 ∧ ∀ x ∈ l, x.lastLoginAt ≠ 0 → x.lastLoginAt ≤ t.lastLoginAt) := by
  have hemp : l.isEmpty = false := by
    cases l with
    | nil => exact absurd rfl hne
    | cons a as => rfl
  cases hfil : l.filter (fun tu => tu.lastLoginAt ≠ 0) with
  | cons mr rest =>
    refine ⟨rest.foldl (fun best tu => if best.lastLoginAt < tu.lastLoginAt then tu else best) mr,
      ?_, ?_, ?_, ?_⟩
    · simp only [selectMostRecentTenant, hemp, Bool.false_eq_true, if_false, hfil]
    · have hmem := foldl_maxLL_mem mr rest
      rw [← hfil] at hmem
      exact List.mem_of_mem_filter hmem
    · intro h
      exact absurd h (List.cons_ne_nil mr rest)
    · intro _
      constructor
      · have hmem := foldl_maxLL_mem mr rest
        rw [← hfil] at hmem
        have := List.of_mem_filter hmem
        simpa using this
      · intro x hx hx0
        have hxf : x ∈ l.filter (fun tu => tu.lastLoginAt ≠ 0) :=
          List.mem_filter.mpr ⟨hx, by simpa using hx0⟩
        rw [hfil] at hxf
        exact foldl_maxLL_ge mr rest x hxf
  | nil =>
    have hall : ∀ x ∈ l, x.lastLoginAt = 0 := by
      intro x hx
      have := List.filter_eq_nil_iff.mp hfil x hx
      simpa using this
    cases hfil0 : l.filter (fun tu => tu.lastLoginAt = 0) with
    | nil =>
      exfalso
      cases l with
      | nil => exact hne rfl
      | cons a as =>
        have ha : a ∈ (a :: as).filter (fun tu => tu.lastLoginAt = 0) :=
          List.mem_filter.mpr ⟨List.mem_cons_self _ _,
            by simpa using hall a (List.mem_cons_self _ _)⟩
        rw [hfil0] at ha
        exact (List.not_mem_nil a) ha
    | cons e rest =>
      refine ⟨rest.foldl (fun best tu => if tu.createdAt < best.createdAt then tu else best) e,
        ?_, ?_, ?_, ?_⟩
      · simp only [selectMostRecentTenant, hemp, Bool.false_eq_true, if_false, hfil, hfil0]
      · have hmem := foldl_minCA_mem e rest
        rw [← hfil0] at hmem
        exact List.mem_of_mem_filter hmem
      · intro _ x hx
        have hxf : x ∈ l.filter (fun tu => tu.lastLoginAt = 0) :=
          List.mem_filter.mpr ⟨hx, by simpa using hall x hx⟩
        rw [hfil0] at hxf
        exact foldl_minCA_le e rest x hxf
      · intro h
        exact absurd rfl h

theorem filter_roles_user_eq (l : List TenantUserWithTenant)
    (hroles : ∀ tu ∈ l, tu.role = "tenant_admin" ∨ tu.role = "user") :
    l.filter (fun tu => ¬(tu.role = "tenant_admin")) = l.filter (fun tu => tu.role = "user") := by
  apply List.filter_congr
  intro x hx
  rcases hroles x hx with h | h <;> simp [h]

/-- **C4.** For every non-empty membership list whose roles are among
`tenant_admin` and `user`, `selectDefaultTenant` returns the single element
when there is exactly one; otherwise an element of the tenant-admin subset
when that subset is non-empty, else of the regular subset, maximal in
`lastLoginAt` among the entries that have logged in, or minimal in
`createdAt` when none has. -/
theorem selectDefaultTenant_meets_spec (l : List TenantUserWithTenant) (hne : l ≠ [])
    (hroles : ∀ tu ∈ l, tu.role = "tenant_admin" ∨ tu.role = "user") :
    SelectDefaultSpec l := by
  match l, hne with
  | [tu], _ =>
    refine ⟨tu, rfl, ?_, ?_⟩
    · intro x hx
      cases hx
      rfl
    · intro h
      simp at h
  | a :: b :: rest, _ =>
    by_cases hadm : (a :: b :: rest).filter (fun tu => tu.role = "tenant_admin") = []
    · have hnadm : ¬ a.role = "tenant_admin" := by
        intro hh
        have hmem : a ∈ (a :: b :: rest).filter (fun tu => tu.role = "tenant_admin") :=
          List.mem_filter.mpr ⟨List.mem_cons_self _ _, by simp [hh]⟩
        rw [hadm] at hmem
        exact (List.not_mem_nil a) hmem
      have hu : a.role = "user" :=
        (hroles a (List.mem_cons_self _ _)).resolve_left hnadm
      have hrne : (a :: b :: rest).filter (fun tu => tu.role = "user") ≠ [] := by
        intro hnil
        have hmem : a ∈ (a :: b :: rest).filter (fun tu => tu.role = "user") :=
          List.mem_filter.mpr ⟨List.mem_cons_self _ _, by simp [hu]⟩
        rw [hnil] at hmem
        exact (List.not_mem_nil a) hmem
      obtain ⟨t, ht, htmem, hmin, hmax⟩ := selectMostRecentTenant_spec _ hrne
      refine ⟨t, ?_, ?_, ?_⟩
      · show selectDefaultTenant (a :: b :: rest) = some t
        rw [show selectDefaultTenant (a :: b :: rest) =
            (if 0 < ((a :: b :: rest).filter (fun tu => tu.role = "tenant_admin")).length then
              selectMostRecentTenant ((a :: b :: rest).filter (fun tu => tu.role = "tenant_admin"))
            else
              selectMostRecentTenant
                ((a :: b :: rest).filter (fun tu => ¬(tu.role = "tenant_admin")))) from rfl]
        rw [hadm, filter_roles_user_eq _ hroles]
        simpa using ht
      · intro x hx
        exact absurd hx (by simp)
      · intro _
        rw [chosenSubset, if_pos hadm]
        exact ⟨htmem, hmin, hmax⟩
    · obtain ⟨t, ht, htmem, hmin, hmax⟩ := selectMostRecentTenant_spec _ hadm
      refine ⟨t, ?_, ?_, ?_⟩
      · show selectDefaultTenant (a :: b :: rest) = some t
        rw [show selectDefaultTenant (a :: b :: rest) =
            (if 0 < ((a :: b :: rest).filter (fun tu => tu.role = "tenant_admin")).length then
              selectMostRecentTenant ((a :: b :: rest).filter (fun tu => tu.role = "tenant_admin"))
            else
              selectMostRecentTenant
                ((a :: b :: rest).filter (fun tu => ¬(tu.role = "tenant_admin")))) from rfl]
        rw [if_pos (List.length_pos.mpr hadm)]
        exact ht
      · intro x hx
        exact absurd hx (by simp)
      · intro _
        rw [chosenSubset, if_neg hadm]
        exact ⟨htmem, hmin, hmax⟩

theorem selectMostRecentTenant_isSome (l : List TenantUserWithTenant) (hne : l ≠ []) :
    ∃ t, selectMostRecentTenant l = some t := by
  obtain ⟨t, ht, -⟩ := selectMostRecentTenant_spec l hne
  exact ⟨t, ht⟩

theorem selectDefaultTenant_isSome (l : List TenantUserWithTenant) (hne : l ≠ []) :
    ∃ t, selectDefaultTenant l = some t := by
  match l, hne with
  | [tu], _ => exact ⟨tu, rfl⟩
  | a :: b :: rest, _ =>
    rw [show selectDefaultTenant (a :: b :: rest) =
        (if 0 < ((a :: b :: rest).filter (fun tu => tu.role = "tenant_admin")).length then
          selectMostRecentTenant ((a :: b :: rest).filter (fun tu => tu.role = "tenant_admin"))
        else
          selectMostRecentTenant
            ((a :: b :: rest).filter (fun tu => ¬(tu.role = "tenant_admin")))) from rfl]
    by_cases hadm : (a :: b :: rest).filter (fun tu => tu.role = "tenant_admin") = []
    · rw [hadm]
      simp only [List.length_nil, lt_irrefl, if_false]
      apply selectMostRecentTenant_isSome
      intro hnil
      have hnadm : ¬ a.role = "tenant_admin" := by
        intro hh
        have hmem : a ∈ (a :: b :: rest).filter (fun tu => tu.role = "tenant_admin") :=
          List.mem_filter.mpr ⟨List.mem_cons_self _ _, by simp [hh]⟩
        rw [hadm] at hmem
        exact (List.not_mem_nil a) hmem
      have hmem : a ∈ (a :: b :: rest).filter (fun tu => ¬(tu.role = "tenant_admin")) :=
        List.mem_filter.mpr ⟨List.mem_cons_self _ _, by simpa using hnadm⟩
      rw [hnil] at hmem
      exact (List.not_mem_nil a) hmem
    · rw [if_pos (List.length_pos.mpr hadm)]
      exact selectMostRecentTenant_isSome _ hadm

/-- **C6.** The `credentialId` returned by `GenerateAccessToken` is always
the empty string (the registered claims `ID` is never assigned), so every
session warmed at login is stored under the composite key
`(accountId, "")`, and a parsed token's `claims.ID` — the component the
middleware uses for the session lookup — is that same empty string. -/
theorem generateAccessToken_claimsID_always_empty :
    ∀ expiresIn now : Int, ∀ userID tenantID : Nat, ∀ role : String, ∀ u : User,
      (generateAccessToken expiresIn userID tenantID role now).claimsID = "" ∧
      (∃ resp write, handleSystemAdminLogin true expiresIn now u = .ok (resp, write) ∧
        write.userID = u.id ∧ write.claimsID = "") ∧
      (∀ tu rest, ∃ resp write,
        handleTenantUserLogin true expiresIn now u (some (tu :: rest)) = .ok (resp, write) ∧
        write.userID = u.id ∧ write.claimsID = "") ∧
      (∃ c, parseAccessToken (generateAccessToken expiresIn userID tenantID role now).token
          = some c ∧ c.id = "" ∧ c.userID = userID ∧
        getUserSessionKey c.userID c.id = setUserSessionKey userID "") := by
  intro expiresIn now userID tenantID role u
  refine ⟨rfl, ⟨_, _, rfl, rfl, rfl⟩, ?_, ⟨_, rfl, rfl, rfl, rfl⟩⟩
  intro tu rest
  obtain ⟨sel, hsel⟩ := selectDefaultTenant_isSome (tu :: rest) (List.cons_ne_nil _ _)
  unfold handleTenantUserLogin
  dsimp only
  rw [hsel]
  exact ⟨_, _, rfl, rfl, rfl⟩

/-- Claim C3, as the spec states it, is false on the code: with no Lockout
present and the counter at the threshold, the admission check rejects the
attempt (rather than allowing it), the failure-recording operation does not
set the Lockout when the counter crosses the maximum, and it is the
admission check that sets the Lockout. -/
theorem checkAdmission_denies_without_lockout :
    ¬ ((checkUsernameRateLimit noErrs ("alice") { attempts := 5, locked := false }).1 = none) ∧
    recordLoginFailure noErrs ("alice") { attempts := 4, locked := false }
      = { attempts := 5, locked := false } ∧
    (checkUsernameRateLimit noErrs ("alice") { attempts := 5, locked := false }).2
      = { attempts := 5, locked := true } := by
  refine ⟨?_, rfl, rfl⟩
  decide

/-- Claim C3 (amended): see `AdmissionLockProp`. -/
theorem checkUsernameRateLimit_amended :
    ∀ (username : String) (s : UserLimitState), username ≠ "" → AdmissionLockProp username s := by
  intro username s hu
  refine ⟨?_, ?_, ?_⟩
  · by_cases hl : s.locked
    · simp [checkUsernameRateLimit, hu, hl, noErrs]
    · by_cases ha : usernameRateLimitMaxAttempts ≤ s.attempts
      · simp only [checkUsernameRateLimit, hu, hl, ha, noErrs]
        simp [usernameRateLimitMaxAttempts] at ha ⊢
        omega
      · simp only [checkUsernameRateLimit, hu, hl, ha, noErrs]
        simp [usernameRateLimitMaxAttempts] at ha ⊢
        omega
  · intro hl ha
    simp [checkUsernameRateLimit, hu, hl, ha, noErrs]
  · intro e
    by_cases hi : e.incrErr <;> simp [recordLoginFailure, hu, hi]

theorem c3_amended_witness :
    ("alice" : String) ≠ "" ∧ AdmissionLockProp ("alice") { attempts := 5, locked := false } :=
  ⟨by decide, checkUsernameRateLimit_amended ("alice") { attempts := 5, locked := false } (by decide)⟩

theorem checkUsernameRateLimit_fst_lockWrite_indep (e : CacheErrs) (u : String)
    (s : UserLimitState) (b₁ b₂ : Bool) :
    (checkUsernameRateLimit { e with lockWriteErr := b₁ } u s).1
      = (checkUsernameRateLimit { e with lockWriteErr := b₂ } u s).1 := by
  simp only [checkUsernameRateLimit]
  split_ifs <;> rfl

theorem Login_fst_eq (e₁ e₂ : CacheErrs) (env : LoginEnv) (expiresIn now : Int)
    (username password : String) (s : UserLimitState)
    (hfst : (checkUsernameRateLimit e₁ username s).1 = (checkUsernameRateLimit e₂ username s).1) :
    (Login e₁ env expiresIn now username password s).1
      = (Login e₂ env expiresIn now username password s).1 := by
  unfold Login
  rcases h1 : checkUsernameRateLimit e₁ username s with ⟨r1, t1⟩
  rcases h2 : checkUsernameRateLimit e₂ username s with ⟨r2, t2⟩
  rw [h1, h2] at hfst
  dsimp at hfst
  subst hfst
  cases r1 with
  | some err => rfl
  | none =>
    dsimp only
    cases env.byUsername.orElse (fun _ => env.byEmail) with
    | none => rfl
    | some user =>
      dsimp only
      by_cases hp : checkPassword user password
      · rw [if_pos hp, if_pos hp]
        cases hh : (if user.role = "super_admin" then
            handleSystemAdminLogin env.tokenGenOk expiresIn now user
          else
            handleTenantUserLogin env.tokenGenOk expiresIn now user env.tenantUsers) with
        | error err => rfl
        | ok rw => rfl
      · rw [if_neg hp, if_neg hp]

/-- Claim C9: the rate limiters fail open on cache read errors — an error
reading the lock flag or the counter admits the attempt, for the username
limiter and the IP limiter alike — and cache write failures (recording a
failure, setting a lock) are swallowed and leave the outcome of the login
call and of the admission decision unchanged. -/
theorem rateLimit_cache_failure_policy :
    (∀ (e : CacheErrs) (u : String) (s : UserLimitState),
      checkUsernameRateLimit { e with lockedReadErr := true } u s = (none, s)) ∧
    (∀ (e : CacheErrs) (u : String) (a : Nat),
      checkUsernameRateLimit { e with lockedReadErr := false, attemptsReadErr := true } u
        { attempts := a, locked := false } = (none, { attempts := a, locked := false })) ∧
    (∀ (e : CacheErrs) (u : String) (s : UserLimitState) (b₁ b₂ : Bool),
      (checkUsernameRateLimit { e with lockWriteErr := b₁ } u s).1
        = (checkUsernameRateLimit { e with lockWriteErr := b₂ } u s).1) ∧
    (∀ (e : CacheErrs) (env : LoginEnv) (expiresIn now : Int) (u p : String)
        (s : UserLimitState) (b₁ b₂ : Bool),
      (Login { e with incrErr := b₁ } env expiresIn now u p s).1
        = (Login { e with incrErr := b₂ } env expiresIn now u p s).1) ∧
    (∀ (e : CacheErrs) (env : LoginEnv) (expiresIn now : Int) (u p : String)
        (s : UserLimitState) (b₁ b₂ : Bool),
      (Login { e with lockWriteErr := b₁ } env expiresIn now u p s).1
        = (Login { e with lockWriteErr := b₂ } env expiresIn now u p s).1) ∧
    (∀ (maxAttempts : Nat) (e : IPErrs) (s : IPLimitState),
      ipRateLimiterAdmission maxAttempts { e with lockedReadErr := true } s = (.proceed, s)) ∧
    (∀ (maxAttempts : Nat) (e : IPErrs) (a : Nat),
      ipRateLimiterAdmission maxAttempts { e with lockedReadErr := false, attemptsReadErr := true }
        { attempts := a, locked := false } = (.proceed, { attempts := a, locked := false })) ∧
    (∀ (maxAttempts : Nat) (e : IPErrs) (s : IPLimitState) (b₁ b₂ : Bool),
      (ipRateLimiterAdmission maxAttempts { e with lockWriteErr := b₁ } s).1
        = (ipRateLimiterAdmission maxAttempts { e with lockWriteErr := b₂ } s).1) := by
  refine ⟨?_, ?_, ?_, ?_, ?_, ?_, ?_, ?_⟩
  · intro e u s
    by_cases hu : u = "" <;> simp [checkUsernameRateLimit, hu]
  · intro e u a
    by_cases hu : u = "" <;> simp [checkUsernameRateLimit, hu]
  · exact checkUsernameRateLimit_fst_lockWrite_indep
  · intro e env expiresIn now u p s b₁ b₂
    exact Login_fst_eq _ _ env expiresIn now u p s rfl
  · intro e env expiresIn now u p s b₁ b₂
    exact Login_fst_eq _ _ env expiresIn now u p s
      (checkUsernameRateLimit_fst_lockWrite_indep e u s b₁ b₂)
  · intro maxAttempts e s
    simp [ipRateLimiterAdmission]
  · intro maxAttempts e a
    simp [ipRateLimiterAdmission]
  · intro maxAttempts e s b₁ b₂
    simp only [ipRateLimiterAdmission]
    split_ifs <;> rfl

theorem checkUsernameRateLimit_pass (username : String) (hu : username ≠ "") (k : Nat)
    (hk : k < usernameRateLimitMaxAttempts) :
    checkUsernameRateLimit noErrs username { attempts := k, locked := false }
      = (none, { attempts := k, locked := false }) := by
  simp [checkUsernameRateLimit, hu, noErrs, Nat.not_le.mpr hk]

theorem checkUsernameRateLimit_atMax (username : String) (hu : username ≠ "") (k : Nat)
    (hk : usernameRateLimitMaxAttempts ≤ k) :
    checkUsernameRateLimit noErrs username { attempts := k, locked := false }
      = (some .rateLimited, { attempts := k, locked := true }) := by
  simp [checkUsernameRateLimit, hu, noErrs, hk]

theorem login_wrongPassword_step (env : LoginEnv) (u : User) (expiresIn now : Int)
    (username w : String) (hU : env.byUsername = some u) (hw : w ≠ u.password)
    (hu : username ≠ "") (k : Nat) (hk : k < usernameRateLimitMaxAttempts) :
    Login noErrs env expiresIn now username w { attempts := k, locked := false }
      = (.error .invalidCredentials, { attempts := k + 1, locked := false }) := by
  unfold Login
  rw [checkUsernameRateLimit_pass username hu k hk]
  dsimp only
  rw [hU]
  have hpw : checkPassword u w = false := by
    simp [checkPassword]
    exact fun h => hw h.symm
  simp [Option.orElse, hpw, recordLoginFailure, hu, noErrs]

/-- Claim C5: after `usernameRateLimitMaxAttempts` (5) consecutive failed
login attempts for a username, the next attempt is rejected as rate-limited
regardless of the supplied password (so before the password is checked),
even when that password is correct. -/
theorem login_rateLimited_after_max_failures :
    ∀ (env : LoginEnv) (u : User) (expiresIn now : Int) (username w : String),
      env.byUsername = some u → w ≠ u.password → username ≠ "" →
      RateLimitedAfterMaxFailures env expiresIn now username w := by
  intro env u expiresIn now username w hU hw hu
  have hstate : ∀ k, k ≤ usernameRateLimitMaxAttempts →
      afterNFailures env expiresIn now username w k = { attempts := k, locked := false } := by
    intro k
    induction k with
    | zero => intro _; rfl
    | succ n ih =>
      intro hn
      have hn' : n < usernameRateLimitMaxAttempts := Nat.lt_of_succ_le hn
      rw [afterNFailures, ih (Nat.le_of_lt hn'),
        login_wrongPassword_step env u expiresIn now username w hU hw hu n hn']
  have h5 := hstate usernameRateLimitMaxAttempts (Nat.le_refl _)
  refine ⟨h5, ?_⟩
  intro p
  rw [h5]
  unfold Login
  rw [checkUsernameRateLimit_atMax username hu usernameRateLimitMaxAttempts (Nat.le_refl _)]

theorem c5_witness :
    (demoEnv.byUsername = some demoAdmin) ∧ ("wrong" : String) ≠ demoAdmin.password ∧
    ("alice" : String) ≠ "" ∧ RateLimitedAfterMaxFailures demoEnv 3600 0 ("alice") ("wrong") :=
  ⟨rfl, by decide, by decide,
    login_rateLimited_after_max_failures demoEnv demoAdmin 3600 0 ("alice") ("wrong")
      rfl (by decide) (by decide)⟩

/-- Claim C8: a fully successful login — admission passed, account found,
password verified, response built — clears both the failure counter and the
Lockout flag for the username (absent a cache error on the delete), leaving
a clean rate-limit state. -/
theorem login_success_clears_rate_limit :
    ∀ (e : CacheErrs) (env : LoginEnv) (expiresIn now : Int) (username p : String)
      (s : UserLimitState), username ≠ "" → e.clearErr = false →
      (∃ rw, (Login e env expiresIn now username p s).1 = .ok rw) →
      (Login e env expiresIn now username p s).2 = { attempts := 0, locked := false } := by
  intro e env expiresIn now username p s hu hclear hok
  obtain ⟨rw0, hok⟩ := hok
  unfold Login at hok ⊢
  rcases hc : checkUsernameRateLimit e username s with ⟨r, s1⟩
  rw [hc] at hok
  cases r with
  | some err => exact absurd hok (by simp)
  | none =>
    dsimp only at hok ⊢
    rcases ho : env.byUsername.orElse (fun _ => env.byEmail) with _ | user
    · rw [ho] at hok
      exact absurd hok (by simp)
    · rw [ho] at hok
      dsimp only at hok ⊢
      by_cases hp : checkPassword user p
      · simp only [hp, if_true] at hok ⊢
        rcases hh : (if user.role = "super_admin" then
            handleSystemAdminLogin env.tokenGenOk expiresIn now user
          else
            handleTenantUserLogin env.tokenGenOk expiresIn now user env.tenantUsers) with err | rw1
        · rw [hh] at hok
          exact absurd hok (by simp)
        · dsimp only
          simp [clearLoginAttempts, hu, hclear]
      · simp [hp] at hok

theorem c8_witness :
    ("alice" : String) ≠ "" ∧ noErrs.clearErr = false ∧
    (∃ rw, (Login noErrs demoEnv 3600 0 ("alice") ("pw")
        { attempts := 3, locked := false }).1 = .ok rw) ∧
    (Login noErrs demoEnv 3600 0 ("alice") ("pw") { attempts := 3, locked := false }).2
      = { attempts := 0, locked := false } :=
  ⟨by decide, rfl, ⟨_, rfl⟩,
    login_success_clears_rate_limit noErrs demoEnv 3600 0 ("alice") ("pw")
      { attempts := 3, locked := false } (by decide) rfl ⟨_, rfl⟩⟩

/-- Claim C7: on logout with remaining validity `exp - now`, exactly one
blacklist entry is written, with TTL equal to that remaining time, when it
is positive, and nothing is written otherwise; in either case the session
payloads and the per-account session index are untouched (only the `kv`
component changes). -/
theorem logout_blacklist_frame :
    ∀ (exp now : Int) (token : String) (r : RedisState),
      logoutBlacklistStep false (some exp) now token r =
        .ok { r with kv :=
          if 0 < exp - now then
            { key := generateAccessTokenKey token, value := "true", ttl := exp - now } :: r.kv
          else r.kv } := by
  intro exp now token r
  unfold logoutBlacklistStep
  by_cases h : 0 < exp - now <;> simp [h]

/-- Claim C1 evaluated at its failing input: logging the token out writes a
blacklist entry (remaining validity 100), yet the middleware's revocation
check on the very same token string proceeds instead of rejecting — the
logout handler keys the entry by a SHA-256-based fingerprint while the
middleware looks up a `token-` prefix key, so the entry is never found. -/
theorem revocation_check_misses_logout_blacklist :
    logoutBlacklistStep false (some 100) 0 demoToken
        { kv := [], sessions := [], sessionIndex := [] }
      = .ok { kv := [{ key := generateAccessTokenKey demoToken, value := "true", ttl := 100 }],
              sessions := [], sessionIndex := [] } ∧
    generateAccessTokenKey demoToken ≠ "blacklist:token-abcdefghij" ∧
    jwtRevocationStep
        { kv := [{ key := generateAccessTokenKey demoToken, value := "true", ttl := 100 }],
          sessions := [], sessionIndex := [] } demoToken
      = .proceed := by
  refine ⟨rfl, by decide, by decide⟩

/-- Claim C10: the blacklist-key computation is only defined for tokens of
at least 10 characters — `GenerateTokenIDFromToken` slices the first 10
without a guard, so on any shorter presented token the middleware's
revocation check panics rather than returning an Unauthorized rejection,
while tokens of length at least 10 never hit the panic. -/
theorem short_token_revocation_check_panics :
    ∀ (r : RedisState) (t : String),
      (t.length < 10 → generateTokenIDFromToken t = none ∧ jwtRevocationStep r t = .panicked) ∧
      (10 ≤ t.length → jwtRevocationStep r t ≠ .panicked) := by
  intro r t
  constructor
  · intro h
    have hid : generateTokenIDFromToken t = none := by
      unfold generateTokenIDFromToken
      rw [if_neg (by omega)]
    refine ⟨hid, ?_⟩
    unfold jwtRevocationStep
    rw [hid]
  · intro h
    unfold jwtRevocationStep generateTokenIDFromToken
    rw [if_pos h]
    dsimp only
    rcases kvGet r.kv ("blacklist:" ++ ("token-" ++ String.mk (t.data.take 10))) with _ | v
    · simp
    · dsimp only
      split <;> simp

theorem c10_witness :
    (("abc" : String).length < 10 ∧
      generateTokenIDFromToken ("abc") = none ∧
      jwtRevocationStep { kv := [], sessions := [], sessionIndex := [] } ("abc") = .panicked) ∧
    (10 ≤ ("abcdefghijk" : String).length ∧
      jwtRevocationStep { kv := [], sessions := [], sessionIndex := [] } ("abcdefghijk")
        ≠ .panicked) :=
  ⟨⟨by decide,
    (short_token_revocation_check_panics
      { kv := [], sessions := [], sessionIndex := [] } ("abc")).1 (by decide)⟩,
   ⟨by decide,
    (short_token_revocation_check_panics
      { kv := [], sessions := [], sessionIndex := [] } ("abcdefghijk")).2 (by decide)⟩⟩

/-- Claim C2 evaluated at its failing input: on a session-cache miss for an
account that still exists, the middleware proceeds with no session value
(the Go code shadows the reconstructed user in an inner variable, so the
context receives the failed lookup's nil) and asynchronously caches only
the bare user record under the user-by-ID key — not the session cache; a
missing account is indeed a hard Unauthorized rejection; and the service's
own `GetUserSessionData` (which the middleware never calls) is what
reconstructs the full session context and repopulates the session cache. -/
theorem middleware_miss_path_divergence :
    jwtMiddlewareSessionStep none (some demoUserBob)
      = .ok (none, some (.setUserByID demoUserBob)) ∧
    jwtMiddlewareSessionStep none none = .error ("User not found") ∧
    (∃ d, getUserSessionData 9 3 "" none (some demoUserBob) (some [demoMembership])
      = .ok (d, some (.setUserSession 9 "" d)) ∧ d.tenantID = 3 ∧ d.role = "user") :=
  ⟨rfl, rfl, ⟨_, rfl, rfl, rfl⟩⟩

theorem c4_witness :
    ([demoLoggedMembership, demoAdminMembership] ≠ ([] : List TenantUserWithTenant)) ∧
    (∀ tu ∈ [demoLoggedMembership, demoAdminMembership],
      tu.role = "tenant_admin" ∨ tu.role = "user") ∧
    SelectDefaultSpec [demoLoggedMembership, demoAdminMembership] :=
  ⟨by decide, by decide,
    selectDefaultTenant_meets_spec [demoLoggedMembership, demoAdminMembership]
      (by decide) (by decide)⟩

end UCServer

